import Mathlib

/-!
Shallow embedding of the decision-and-grid-state engine of
`src/programs/hns.py` (class `HNS`): the occupancy grid, the neighbor
query `analyze`, the distance computation `get_distance`, the decision
function `take_decision`, the grid mutators `clear_previous_location`,
`update_map`, `move`, the target validation `check_location` /
`assign_targets`, and the control loop of `process`.

The grid is a Python list of rows of small integers (a numpy 2-D int
array in the source).  Python sequence indexing is modelled exactly:
an index `i` with `0 <= i < n` denotes position `i`, an index with
`-n <= i < 0` wraps around to `n + i`, and anything else raises
`IndexError`, modelled as `none`.
-/

namespace HNS

/-- Occupancy grid: list of rows of integer cell values. -/
abbrev Map := List (List Int)

/-- Resolution of one Python sequence index against a length `n`:
in-range indices stand for themselves, negative indices in `[-n, 0)`
wrap to `n + i`, everything else raises (`none`). -/
def pyIdx (n : Nat) (i : Int) : Option Nat :=
  if 0 ≤ i ∧ i < (n : Int) then some i.toNat
  else if -(n : Int) ≤ i ∧ i < 0 then some (i + (n : Int)).toNat
  else none

/-- Resolved (row, column) pair of the Python double index `map[i][j]`;
`none` exactly when Python would raise `IndexError`. -/
def pyRes2 (m : Map) (i j : Int) : Option (Nat × Nat) :=
  (pyIdx m.length i).bind fun r =>
    (m[r]?).bind fun row =>
      (pyIdx row.length j).map fun c => (r, c)

/-- Cell value at an already-resolved (row, column) pair. -/
def cellAt (m : Map) (rc : Nat × Nat) : Option Int :=
  (m[rc.1]?).bind fun row => row[rc.2]?

/-- The Python read `map[i][j]` (negative wrap, `IndexError` as `none`). -/
def pyGet2 (m : Map) (i j : Int) : Option Int :=
  (pyRes2 m i j).bind (cellAt m)

/-- Write at an already-resolved (row, column) pair. -/
def setCell (m : Map) (rc : Nat × Nat) (v : Int) : Map :=
  match m[rc.1]? with
  | some row => m.set rc.1 (row.set rc.2 v)
  | none => m

/-- The Python write `map[i][j] = v` (negative wrap, `IndexError` as `none`). -/
def pySet2 (m : Map) (i j : Int) (v : Int) : Option Map :=
  (pyRes2 m i j).map fun rc => setCell m rc v

/-- `HNS.analyze` (hns.py lines 258-301): the four orthogonal neighbor
values `(up, down, right, left)` at `(x, y)`.  Each lookup is wrapped in
`try/except`; a raising lookup yields the obstacle value.  The source
assigns the one-character string `'1'` in the `except` branch; every
consumer only compares the status against `0` and `4`, which the string
fails exactly as the integer `1` does, so it is embedded as `1`. -/
def analyze (m : Map) (x y : Int) : Int × Int × Int × Int :=
  ((pyGet2 m (x - 1) y).getD 1,
   (pyGet2 m (x + 1) y).getD 1,
   (pyGet2 m x (y + 1)).getD 1,
   (pyGet2 m x (y - 1)).getD 1)

/-- `HNS.check_location` (hns.py lines 180-209): `True` iff the cell is
readable and holds `0`; any `IndexError` is caught and yields `False`. -/
def check_location (m : Map) (x y : Int) : Bool :=
  match pyGet2 m x y with
  | some v => v == 0
  | none => false

/-- `HNS.get_distance` (hns.py lines 360-378): signed and absolute
distance to the goal, `(distance_x, distance_y, abs_distance_x,
abs_distance_y)`. -/
def get_distance (x y gx gy : Int) : Int × Int × Int × Int :=
  let distance_x := gx - x
  let distance_y := gy - y
  (distance_x, distance_y, |distance_x|, |distance_y|)

/-- `HNS.clear_previous_location` (hns.py lines 320-337): mark the cell
visited (`2`) unless it holds a singular point (`3` or `4`); the read
`map[x][y]` is not guarded, so an out-of-range index raises (`none`). -/
def clear_previous_location (m : Map) (x y : Int) : Option Map :=
  match pyGet2 m x y with
  | some v => if v = 3 ∨ v = 4 then some m else pySet2 m x y 2
  | none => none

/-- `HNS.update_map` (hns.py lines 340-357): textually the same body as
`clear_previous_location` in the source. -/
def update_map (m : Map) (x y : Int) : Option Map :=
  match pyGet2 m x y with
  | some v => if v = 3 ∨ v = 4 then some m else pySet2 m x y 2
  | none => none

/-- `HNS.assign_targets` (hns.py lines 148-177): place the start marker
`3` at the requested start if `check_location` accepts it, else at the
default `(2, 2)`; the agent coordinate is updated to whichever was used
(`update_location`).  Then place the goal marker `4` at the requested
goal if the updated map accepts it, else at the default `(7, 2)`.
Returns the map together with the recorded agent coordinate. -/
def assign_targets (m : Map) (ix iy gx gy : Int) : Option (Map × Int × Int) :=
  let start : Option (Map × Int × Int) :=
    if check_location m ix iy then
      (pySet2 m ix iy 3).map fun m1 => (m1, ix, iy)
    else
      (pySet2 m 2 2 3).map fun m1 => (m1, 2, 2)
  start.bind fun s =>
    let goalMap : Option Map :=
      if check_location s.1 gx gy then pySet2 s.1 gx gy 4
      else pySet2 s.1 7 2 4
    goalMap.map fun m2 => (m2, s.2.1, s.2.2)

/-- `HNS.take_decision` (hns.py lines 381-555): the nested-conditional
greedy decision.  Arguments follow the source signature
`(up, down, right, left, distance_x, distance_y, abs_distance_x,
abs_distance_y)`; the result is the command string put into the buffer.
The source initializes `command = "NONE"` and conditionally overwrites
it; since every guard is on immutable arguments, that is the if-chain
below, including the branch of lines 551-552 which tests `right` but
assigns `"LEFT"`. -/
def take_decision (up down right left dx dy adx ady : Int) : String :=
  if adx ≥ ady then
    if dx < 0 then
      if up = 0 ∨ up = 4 then "UP"
      else
        if dy < 0 then
          if left = 0 ∨ left = 4 then "LEFT"
          else if right = 0 ∨ right = 4 then "RIGHT"
          else if down = 0 ∨ down = 4 then "DOWN"
          else "NONE"
        else
          if right = 0 ∨ right = 4 then "RIGHT"
          else if left = 0 ∨ left = 4 then "LEFT"
          else if down = 0 ∨ down = 4 then "DOWN"
          else "NONE"
    else
      if down = 0 ∨ down = 4 then "DOWN"
      else
        if dy < 0 then
          if left = 0 ∨ left = 4 then "LEFT"
          else if right = 0 ∨ right = 4 then "RIGHT"
          else if up = 0 ∨ up = 4 then "UP"
          else "NONE"
        else
          if right = 0 ∨ right = 4 then "RIGHT"
          else if left = 0 ∨ left = 4 then "LEFT"
          else if up = 0 ∨ up = 4 then "UP"
          else "NONE"
  else
    if dy < 0 then
      if left = 0 ∨ left = 4 then "LEFT"
      else
        if dx < 0 then
          if up = 0 ∨ up = 4 then "UP"
          else if down = 0 ∨ down = 4 then "DOWN"
          else if right = 0 ∨ right = 4 then "RIGHT"
          else "NONE"
        else
          if down = 0 ∨ down = 4 then "DOWN"
          else if up = 0 ∨ up = 4 then "UP"
          else if right = 0 ∨ right = 4 then "RIGHT"
          else "NONE"
    else
      if right = 0 ∨ right = 4 then "RIGHT"
      else
        if dx < 0 then
          if up = 0 ∨ up = 4 then "UP"
          else if down = 0 ∨ down = 4 then "DOWN"
          else if left = 0 ∨ left = 4 then "LEFT"
          else "NONE"
        else
          if down = 0 ∨ down = 4 then "DOWN"
          else if up = 0 ∨ up = 4 then "UP"
          else if right = 0 ∨ right = 4 then "LEFT"
          else "NONE"

/-- The coordinate arithmetic of `HNS.move` (hns.py lines 572-586): the
four consecutive `if` statements on the immutable `command` string,
equivalent to one chain because the tested strings are distinct. -/
def newPos (cmd : String) (x y : Int) : Int × Int :=
  if cmd = "UP" then (x - 1, y)
  else if cmd = "DOWN" then (x + 1, y)
  else if cmd = "RIGHT" then (x, y + 1)
  else if cmd = "LEFT" then (x, y - 1)
  else (x, y)

/-- `HNS.move` (hns.py lines 558-591): clear the departure cell, compute
the destination, record it (`update_location`) and mark it on the map;
returns the updated map and the new coordinate.  An unguarded raising
index access propagates as `none`. -/
def move (m : Map) (cmd : String) (x y : Int) : Option (Map × Int × Int) :=
  (clear_previous_location m x y).bind fun m1 =>
    (update_map m1 (newPos cmd x y).1 (newPos cmd x y).2).map fun m2 =>
      (m2, (newPos cmd x y).1, (newPos cmd x y).2)

/-- Repeated application of `move` at explicitly given commands and
coordinates, threading the map. -/
def moveMany : Map → List (String × Int × Int) → Option Map
  | m, [] => some m
  | m, (c, x, y) :: rest => (move m c x y).bind fun r => moveMany r.1 rest

/-- State of the control loop of `HNS.process` (hns.py lines 706-771):
the map, the agent coordinate (`update_location`), the fixed goal, the
step counter and the commands emitted so far. -/
structure LoopState where
  map : Map
  x : Int
  y : Int
  gx : Int
  gy : Int
  steps : Nat
  trace : List String
deriving DecidableEq

/-- Terminal outcome of the loop: goal achieved, step limit hit, or an
uncaught `IndexError` from `move` (the source has no handler there). -/
inductive Outcome where
  | goalReached
  | stepLimit
  | crash
deriving DecidableEq

/-- Result of one iteration of the `while not goal` body. -/
inductive StepRes where
  | done (o : Outcome) (st : LoopState)
  | next (st : LoopState)

/-- The command chosen inside one loop iteration of `HNS.process`: the
distances and the four neighbor statuses are computed and handed to
`take_decision` (the worker thread is started and immediately joined, so
this is a synchronous call). -/
def stepCmd (st : LoopState) : String :=
  let d := get_distance st.x st.y st.gx st.gy
  let a := analyze st.map st.x st.y
  take_decision a.1 a.2.1 a.2.2.1 a.2.2.2 d.1 d.2.1 d.2.2.1 d.2.2.2

/-- One iteration of the loop body of `HNS.process`: compute distances,
analyze neighbors, exit on zero distance, otherwise decide, move, emit
the command, check the step limit (`steps > 100`), and in every path
increment the step counter. -/
def loopStep (st : LoopState) : StepRes :=
  if (get_distance st.x st.y st.gx st.gy).2.2.1 = 0 ∧
      (get_distance st.x st.y st.gx st.gy).2.2.2 = 0 then
    .done .goalReached { st with steps := st.steps + 1 }
  else
    match move st.map (stepCmd st) st.x st.y with
    | none => .done .crash st
    | some r =>
      let st2 := { st with map := r.1, x := r.2.1, y := r.2.2,
                           steps := st.steps + 1,
                           trace := st.trace ++ [stepCmd st] }
      if st.steps > 100 then .done .stepLimit st2 else .next st2

/-- The loop of `HNS.process`, bounded by an iteration budget: `none`
means the loop is still running after `fuel` iterations. -/
def run : Nat → LoopState → Option (Outcome × LoopState)
  | 0, _ => none
  | fuel + 1, st =>
    match loopStep st with
    | .done o st' => some (o, st')
    | .next st' => run fuel st'

/-- Entry into the loop of `HNS.process`: `update_location(init_x,
init_y)` then `goal = False`, `steps = 0`. -/
def initState (m : Map) (ix iy gx gy : Int) : LoopState :=
  ⟨m, ix, iy, gx, gy, 0, []⟩

/-- The grid is a rectangular `R × C` matrix (numpy guarantees this for
the loaded map). -/
def rect (m : Map) (R C : Nat) : Prop :=
  m.length = R ∧ ∀ row ∈ m, row.length = C

/-- A coordinate inside `[0, R) × [0, C)`. -/
def inBounds (R C : Nat) (x y : Int) : Prop :=
  0 ≤ x ∧ x < (R : Int) ∧ 0 ≤ y ∧ y < (C : Int)

/-- A coordinate in the range where Python double indexing of an
`R × C` matrix does not raise: `[-R, R) × [-C, C)`. -/
def wrapBounds (R C : Nat) (x y : Int) : Prop :=
  -(R : Int) ≤ x ∧ x < (R : Int) ∧ -(C : Int) ≤ y ∧ y < (C : Int)

instance (m : Map) (R C : Nat) : Decidable (rect m R C) := by
  unfold rect
  infer_instance

instance (R C : Nat) (x y : Int) : Decidable (inBounds R C x y) := by
  unfold inBounds
  infer_instance

instance (R C : Nat) (x y : Int) : Decidable (wrapBounds R C x y) := by
  unfold wrapBounds
  infer_instance

/-! ### Index and cell algebra -/

theorem pyIdx_isSome_iff (n : Nat) (i : Int) :
    (pyIdx n i).isSome ↔ (-(n : Int) ≤ i ∧ i < (n : Int)) := by
  unfold pyIdx
  split_ifs with h1 h2 <;> simp <;> omega

theorem pyIdx_of_nonneg (n : Nat) (i : Int) (h0 : 0 ≤ i) (h1 : i < (n : Int)) :
    pyIdx n i = some i.toNat := by
  unfold pyIdx
  rw [if_pos ⟨h0, h1⟩]

theorem pyIdx_lt (n : Nat) (i : Int) (r : Nat) (h : pyIdx n i = some r) : r < n := by
  unfold pyIdx at h
  split_ifs at h with h1 h2 <;> simp_all <;> omega

theorem length_setCell (m : Map) (rc : Nat × Nat) (v : Int) :
    (setCell m rc v).length = m.length := by
  unfold setCell
  split <;> simp

theorem row_setCell (m : Map) (rc : Nat × Nat) (v : Int) (r : Nat) :
    ((setCell m rc v)[r]?).map List.length = (m[r]?).map List.length := by
  unfold setCell
  split
  case h_1 row hrow =>
    rcases eq_or_ne rc.1 r with h | h
    · subst h
      rw [List.getElem?_set_self (by exact (List.getElem?_eq_some_iff.mp hrow).1), hrow]
      simp
    · rw [List.getElem?_set_ne h]
  case h_2 => rfl

theorem pyRes2_setCell (m : Map) (rc : Nat × Nat) (v : Int) (i j : Int) :
    pyRes2 (setCell m rc v) i j = pyRes2 m i j := by
  unfold pyRes2
  rw [length_setCell]
  cases hr : pyIdx m.length i with
  | none => rfl
  | some r =>
    have hlen := row_setCell m rc v r
    simp only [Option.some_bind]
    cases hrow : m[r]? with
    | none =>
      rw [hrow] at hlen
      simp only [Option.map_none', Option.map_eq_none'] at hlen
      rw [hlen]
    | some row =>
      rw [hrow] at hlen
      cases hrow' : (setCell m rc v)[r]? with
      | none => rw [hrow'] at hlen; simp at hlen
      | some row' =>
        rw [hrow'] at hlen
        simp only [Option.map_some'] at hlen
        simp only [Option.some_bind]
        rw [Option.some_inj.mp hlen]

theorem setCell_eq_of_row (m : Map) (rc : Nat × Nat) (v : Int) (row : List Int)
    (hrow : m[rc.1]? = some row) :
    setCell m rc v = m.set rc.1 (row.set rc.2 v) := by
  unfold setCell
  rw [hrow]

theorem cellAt_setCell_same (m : Map) (rc : Nat × Nat) (v w : Int)
    (h : cellAt m rc = some w) : cellAt (setCell m rc v) rc = some v := by
  unfold cellAt at h
  cases hrow : m[rc.1]? with
  | none => rw [hrow] at h; simp at h
  | some row =>
    rw [hrow] at h
    simp only [Option.some_bind] at h
    have hr : rc.1 < m.length := (List.getElem?_eq_some_iff.mp hrow).1
    have hc : rc.2 < row.length := (List.getElem?_eq_some_iff.mp h).1
    unfold cellAt
    rw [setCell_eq_of_row m rc v row hrow, List.getElem?_set_self hr]
    simp [List.getElem?_set_self hc]

theorem cellAt_setCell_other (m : Map) (rc rc' : Nat × Nat) (v : Int)
    (h : rc' ≠ rc) : cellAt (setCell m rc v) rc' = cellAt m rc' := by
  cases hrow : m[rc.1]? with
  | none =>
    unfold setCell
    rw [hrow]
  | some row =>
    unfold cellAt
    rw [setCell_eq_of_row m rc v row hrow]
    rcases eq_or_ne rc'.1 rc.1 with h1 | h1
    · have h2 : rc'.2 ≠ rc.2 := by
        intro h2
        exact h (Prod.ext h1 h2)
      rw [h1, List.getElem?_set_self (by exact (List.getElem?_eq_some_iff.mp hrow).1),
        hrow]
      simp [List.getElem?_set_ne (by omega : rc.2 ≠ rc'.2)]
    · rw [List.getElem?_set_ne (by omega : rc.1 ≠ rc'.1)]

theorem pyGet2_some_of_res (m : Map) (i j : Int) (rc : Nat × Nat)
    (h : pyRes2 m i j = some rc) : ∃ v, pyGet2 m i j = some v := by
  unfold pyRes2 at h
  cases hr : pyIdx m.length i with
  | none => rw [hr] at h; simp at h
  | some r =>
    rw [hr] at h
    simp only [Option.some_bind] at h
    cases hrow : m[r]? with
    | none => rw [hrow] at h; simp at h
    | some row =>
      rw [hrow] at h
      simp only [Option.some_bind] at h
      cases hc : pyIdx row.length j with
      | none => rw [hc] at h; simp at h
      | some c =>
        rw [hc] at h
        simp only [Option.map_some', Option.some_inj] at h
        subst h
        refine ⟨row.get ⟨c, pyIdx_lt _ _ _ hc⟩, ?_⟩
        unfold pyGet2 pyRes2 cellAt
        rw [hr]
        simp only [Option.some_bind]
        rw [hrow]
        simp only [Option.some_bind]
        rw [hc]
        simp only [Option.map_some', Option.some_bind]
        rw [hrow]
        simp [List.getElem?_eq_getElem (pyIdx_lt _ _ _ hc)]

theorem pyGet2_res_of_some (m : Map) (i j v : Int) (h : pyGet2 m i j = some v) :
    ∃ rc, pyRes2 m i j = some rc ∧ cellAt m rc = some v := by
  unfold pyGet2 at h
  cases hres : pyRes2 m i j with
  | none => rw [hres] at h; simp at h
  | some rc =>
    rw [hres] at h
    exact ⟨rc, rfl, h⟩

theorem rect_row (m : Map) (R C : Nat) (h : rect m R C) (r : Nat) (hr : r < R) :
    ∃ row, m[r]? = some row ∧ row.length = C := by
  have hlt : r < m.length := by rw [h.1]; exact hr
  exact ⟨m[r], List.getElem?_eq_getElem hlt, h.2 _ (List.getElem_mem hlt)⟩

theorem rect_setCell (m : Map) (R C : Nat) (rc : Nat × Nat) (v : Int)
    (h : rect m R C) : rect (setCell m rc v) R C := by
  constructor
  · rw [length_setCell, h.1]
  · intro row' hmem
    unfold setCell at hmem
    split at hmem
    case h_1 row hrow =>
      rcases List.mem_or_eq_of_mem_set hmem with hm | he
      · exact h.2 _ hm
      · rw [he, List.length_set]
        exact h.2 _ (List.getElem?_mem hrow)
    case h_2 => exact h.2 _ hmem

theorem pySet2_inv (m m2 : Map) (x y v : Int) (h : pySet2 m x y v = some m2) :
    ∃ rc, pyRes2 m x y = some rc ∧ m2 = setCell m rc v := by
  unfold pySet2 at h
  cases hres : pyRes2 m x y with
  | none => rw [hres] at h; simp at h
  | some rc =>
    rw [hres] at h
    simp only [Option.map_some', Option.some_inj] at h
    exact ⟨rc, rfl, h.symm⟩

theorem pySet2_some_of_res (m : Map) (x y v : Int) (rc : Nat × Nat)
    (h : pyRes2 m x y = some rc) : pySet2 m x y v = some (setCell m rc v) := by
  unfold pySet2
  rw [h]
  rfl

theorem pyRes2_some_of_wrap (m : Map) (R C : Nat) (h : rect m R C) (i j : Int)
    (hw : wrapBounds R C i j) : ∃ rc, pyRes2 m i j = some rc := by
  obtain ⟨hw1, hw2, hw3, hw4⟩ := hw
  have hi : (pyIdx m.length i).isSome := by
    rw [h.1, pyIdx_isSome_iff]
    exact ⟨hw1, hw2⟩
  obtain ⟨r, hr⟩ := Option.isSome_iff_exists.mp hi
  obtain ⟨row, hrow, hlen⟩ := rect_row m R C h r (h.1 ▸ pyIdx_lt m.length i r hr)
  have hj : (pyIdx row.length j).isSome := by
    rw [hlen, pyIdx_isSome_iff]
    exact ⟨hw3, hw4⟩
  obtain ⟨c, hc⟩ := Option.isSome_iff_exists.mp hj
  refine ⟨(r, c), ?_⟩
  unfold pyRes2
  rw [hr]
  simp only [Option.some_bind]
  rw [hrow]
  simp only [Option.some_bind]
  rw [hc]
  rfl

theorem wrap_of_pyRes2_some (m : Map) (R C : Nat) (h : rect m R C) (i j : Int)
    (rc : Nat × Nat) (hres : pyRes2 m i j = some rc) : wrapBounds R C i j := by
  unfold pyRes2 at hres
  cases hr : pyIdx m.length i with
  | none => rw [hr] at hres; simp at hres
  | some r =>
    rw [hr] at hres
    simp only [Option.some_bind] at hres
    cases hrow : m[r]? with
    | none => rw [hrow] at hres; simp at hres
    | some row =>
      rw [hrow] at hres
      simp only [Option.some_bind] at hres
      cases hc : pyIdx row.length j with
      | none => rw [hc] at hres; simp at hres
      | some c =>
        have hi := (pyIdx_isSome_iff m.length i).mp (by rw [hr]; rfl)
        have hj := (pyIdx_isSome_iff row.length j).mp (by rw [hc]; rfl)
        have hlen : row.length = C := h.2 _ (List.getElem?_mem hrow)
        rw [h.1] at hi
        rw [hlen] at hj
        exact ⟨hi.1, hi.2, hj.1, hj.2⟩

theorem update_map_spec (m : Map) (x y v : Int) (h : pyGet2 m x y = some v) :
    ∃ m2, update_map m x y = some m2 ∧
      (∀ i j, pyRes2 m2 i j = pyRes2 m i j) ∧
      (∀ i j, pyRes2 m i j = pyRes2 m x y →
        pyGet2 m2 i j = some (if v = 3 ∨ v = 4 then v else 2)) ∧
      (∀ i j, pyRes2 m i j ≠ pyRes2 m x y → pyGet2 m2 i j = pyGet2 m i j) := by
  obtain ⟨rc, hres, hcell⟩ := pyGet2_res_of_some m x y v h
  by_cases h34 : v = 3 ∨ v = 4
  · refine ⟨m, ?_, fun i j => rfl, ?_, fun i j _ => rfl⟩
    · simp only [update_map, h, if_pos h34]
    · intro i j hij
      rw [if_pos h34]
      unfold pyGet2
      rw [hij, hres]
      simp only [Option.some_bind]
      exact hcell
  · refine ⟨setCell m rc 2, ?_, pyRes2_setCell m rc 2, ?_, ?_⟩
    · simp only [update_map, h, if_neg h34]
      exact pySet2_some_of_res m x y 2 rc hres
    · intro i j hij
      rw [if_neg h34]
      unfold pyGet2
      rw [pyRes2_setCell, hij, hres]
      simp only [Option.some_bind]
      exact cellAt_setCell_same m rc 2 v hcell
    · intro i j hij
      unfold pyGet2
      rw [pyRes2_setCell]
      cases hres2 : pyRes2 m i j with
      | none => rfl
      | some rc2 =>
        simp only [Option.some_bind]
        apply cellAt_setCell_other
        intro he
        rw [hres2, hres, he] at hij
        exact hij rfl

theorem clear_eq_update_fun (m : Map) (x y : Int) :
    clear_previous_location m x y = update_map m x y := rfl

theorem update_rect (m m2 : Map) (R C : Nat) (x y : Int) (h : rect m R C)
    (hu : update_map m x y = some m2) : rect m2 R C := by
  cases hg : pyGet2 m x y with
  | none => simp [update_map, hg] at hu
  | some v =>
    simp only [update_map, hg] at hu
    split_ifs at hu with h34
    · rw [← Option.some_inj.mp hu]
      exact h
    · obtain ⟨rc, _, hm2⟩ := pySet2_inv m m2 x y 2 hu
      rw [hm2]
      exact rect_setCell m R C rc 2 h


/-! ### The spec-side priority rule (for comparison with `take_decision`) -/

/-- Modelled from the spec, section 4.2: the neighbor status corresponding
to a direction name. -/
def statusOf (up down right left : Int) (c : String) : Int :=
  if c = "UP" then up
  else if c = "DOWN" then down
  else if c = "RIGHT" then right
  else left

/-- Modelled from the spec, section 4.2: the direction opposite a given
direction. -/
def oppositeDir (c : String) : String :=
  if c = "UP" then "DOWN"
  else if c = "DOWN" then "UP"
  else if c = "RIGHT" then "LEFT"
  else "RIGHT"

/-- Modelled from the spec, section 4.2: the four-level priority rule.
Vertical is dominant when `|dx| >= |dy|`; the primary direction reduces
the dominant-axis distance (negative toward UP/LEFT, otherwise
DOWN/RIGHT), the secondary reduces the other axis, the tertiary is the
opposite of the secondary, the quaternary the opposite of the primary; a
direction is available when its neighbor value is `0` or `4`; the first
available direction in that order is emitted, else `NONE`. -/
def priorityDecision (up down right left dx dy adx ady : Int) : String :=
  let pv := if dx < 0 then "UP" else "DOWN"
  let ph := if dy < 0 then "LEFT" else "RIGHT"
  let order :=
    if adx ≥ ady then [pv, ph, oppositeDir ph, oppositeDir pv]
    else [ph, pv, oppositeDir pv, oppositeDir ph]
  let avail : String → Bool := fun c =>
    statusOf up down right left c == 0 || statusOf up down right left c == 4
  (order.find? avail).getD "NONE"

/-! ### Claim theorems, first batch -/

/-- Claim C1: in the horizontal-dominant / goal-right / goal-down branch
with only the left neighbor available, the four-level priority rule
requires the quaternary direction LEFT, but `take_decision` emits NONE:
its quaternary guard (hns.py lines 551-552) retests the `right` neighbor
inside the `else` of the identical test, so it can never fire.  The code
contradicts its own comment ("try to go to the last priority") and the
documented four-branch symmetry. -/
theorem C1_quaternary_dead_branch :
    take_decision 1 1 1 0 1 2 1 2 = "NONE" ∧
    priorityDecision 1 1 1 0 1 2 1 2 = "LEFT" := ⟨rfl, rfl⟩

/-- Claim C2: `analyze` does not absorb a negative neighbor index at the
grid edge.  On the 2-by-2 grid `[[0,0],[2,0]]` at position `(0,0)`, the
up index `-1` and the left index `-1` wrap around (Python negative
indexing), so `analyze` returns the in-grid values `2` (cell `(1,0)`)
and `0` (cell `(0,1)`) instead of the obstacle value `1` the claim
requires. -/
theorem C2_negative_index_wraps :
    analyze [[0, 0], [2, 0]] 0 0 = (2, 2, 0, 0) := by decide

/-- Claim C4, counterexample to the claim as stated: on the 1-by-1 grid
`[[3]]` with unreachable goal `(5,5)` the loop is still running after
101 iterations (it needs 102), and from the out-of-bounds start
`(1000,0)` the loop terminates in neither GOAL_REACHED nor
STEP_LIMIT_EXCEEDED but in an uncaught IndexError from `move`. -/
theorem C4_counterexample :
    run 101 (initState [[3]] 0 0 5 5) = none ∧
    (run 102 (initState [[0]] 1000 0 0 0)).map Prod.fst =
      some Outcome.crash := ⟨by decide, by decide⟩

/-- Claim C5: a requested start coordinate that is out of the grid
bounds is not always replaced by the default `(2,2)`: on an 8-by-3 zero
grid the request `(-1, 0)` wraps around (Python negative indexing),
passes `check_location` against cell `(7,0)`, and `assign_targets`
places the start marker `3` at `(7,0)` while recording the agent
coordinate `(-1, 0)`; the default is never used. -/
theorem C5_negative_start_accepted :
    assign_targets (List.replicate 8 (List.replicate 3 0)) (-1) 0 7 2 =
      some (List.replicate 7 (List.replicate 3 0) ++ [[3, 0, 4]], -1, 0) := by
  decide

/-- Claim C7: `get_distance` returns exactly
`(gx - x, gy - y, |gx - x|, |gy - y|)`.  It is a pure total function of
its four integer arguments, so it has no side effects or failure mode
and trivially returns the same result on repeated calls. -/
theorem C7_get_distance_exact (x y gx gy : Int) :
    get_distance x y gx gy = (gx - x, gy - y, |gx - x|, |gy - y|) := rfl

/-- The 5-by-5 demo grid of the C8 scenario: all zeros except the start
marker at `(0,0)` and the goal marker at `(0,4)`. -/
def demoMap : Map :=
  [[3, 0, 0, 0, 4],
   [0, 0, 0, 0, 0],
   [0, 0, 0, 0, 0],
   [0, 0, 0, 0, 0],
   [0, 0, 0, 0, 0]]

/-- Claim C8: from start `(0,0)` to goal `(0,4)` on `demoMap` the loop
emits exactly RIGHT, RIGHT, RIGHT, RIGHT (four steps) and terminates
with GOAL_REACHED, the agent ending at `(0,4)`. -/
theorem C8_demo_scenario :
    (run 5 (initState demoMap 0 0 0 4)).map
        (fun p => (p.1, p.2.trace, p.2.x, p.2.y)) =
      some (Outcome.goalReached, ["RIGHT", "RIGHT", "RIGHT", "RIGHT"], 0, 4) ∧
    (run 5 (initState demoMap 0 0 0 4)).map (fun p => p.2.trace.length) =
      some 4 := ⟨by decide, by decide⟩

/-- Claim C9: `clear_previous_location` and `update_map` compute the
same function, and that function leaves a cell holding `3` or `4`
untouched and otherwise sets it to `2`. -/
theorem C9_clear_update_equiv (m : Map) (x y : Int) :
    clear_previous_location m x y = update_map m x y ∧
    (∀ v, pyGet2 m x y = some v →
      ((v = 3 ∨ v = 4) → clear_previous_location m x y = some m) ∧
      (¬(v = 3 ∨ v = 4) → ∃ m2, clear_previous_location m x y = some m2 ∧
        pyGet2 m2 x y = some 2)) := by
  refine ⟨rfl, ?_⟩
  intro v hv
  constructor
  · intro h34
    simp only [clear_previous_location, hv, if_pos h34]
  · intro h34
    obtain ⟨m2, hm2, _, hsame, _⟩ := update_map_spec m x y v hv
    refine ⟨m2, by rw [clear_eq_update_fun]; exact hm2, ?_⟩
    have hc := hsame x y rfl
    rw [if_neg h34] at hc
    exact hc

/-- Witness for C9 at the concrete cell `[[5]]`, `(0,0)`. -/
theorem C9_clear_update_equiv_witness :
    clear_previous_location [[5]] 0 0 = update_map [[5]] 0 0 ∧
    (∃ m2, clear_previous_location [[5]] 0 0 = some m2 ∧
      pyGet2 m2 0 0 = some 2) :=
  ⟨(C9_clear_update_equiv [[5]] 0 0).1,
   ((C9_clear_update_equiv [[5]] 0 0).2 5 (by decide)).2 (by decide)⟩


/-! ### Inversion and preservation lemmas for the marking operations -/

theorem pyGet2_congr_res (m : Map) (i j x y : Int)
    (h : pyRes2 m i j = pyRes2 m x y) : pyGet2 m i j = pyGet2 m x y := by
  unfold pyGet2
  rw [h]

theorem update_get_inv (m m1 : Map) (x y : Int)
    (h : update_map m x y = some m1) : ∃ w, pyGet2 m x y = some w := by
  cases hg : pyGet2 m x y with
  | none => simp [update_map, hg] at h
  | some w => exact ⟨w, rfl⟩

theorem clear_spec (m : Map) (x y v : Int) (h : pyGet2 m x y = some v) :
    ∃ m2, clear_previous_location m x y = some m2 ∧
      (∀ i j, pyRes2 m2 i j = pyRes2 m i j) ∧
      (∀ i j, pyRes2 m i j = pyRes2 m x y →
        pyGet2 m2 i j = some (if v = 3 ∨ v = 4 then v else 2)) ∧
      (∀ i j, pyRes2 m i j ≠ pyRes2 m x y → pyGet2 m2 i j = pyGet2 m i j) := by
  obtain ⟨m2, h1, h2, h3, h4⟩ := update_map_spec m x y v h
  exact ⟨m2, by rw [clear_eq_update_fun]; exact h1, h2, h3, h4⟩

theorem update_preserves_34 (m m1 : Map) (x y : Int)
    (h : update_map m x y = some m1) (i j v : Int)
    (hv : pyGet2 m i j = some v) (h34 : v = 3 ∨ v = 4) :
    pyGet2 m1 i j = some v := by
  obtain ⟨w, hw⟩ := update_get_inv m m1 x y h
  obtain ⟨m1c, h1, _, h3, h4⟩ := update_map_spec m x y w hw
  have hmm : m1c = m1 := by
    rw [h] at h1
    exact (Option.some_inj.mp h1).symm
  subst hmm
  by_cases hsame : pyRes2 m i j = pyRes2 m x y
  · have hvw : v = w := by
      have he := pyGet2_congr_res m i j x y hsame
      rw [hv, hw] at he
      exact Option.some_inj.mp he
    subst hvw
    have hc := h3 i j hsame
    rw [if_pos h34] at hc
    exact hc
  · rw [h4 i j hsame]
    exact hv

theorem clear_preserves_34 (m m1 : Map) (x y : Int)
    (h : clear_previous_location m x y = some m1) (i j v : Int)
    (hv : pyGet2 m i j = some v) (h34 : v = 3 ∨ v = 4) :
    pyGet2 m1 i j = some v := by
  rw [clear_eq_update_fun] at h
  exact update_preserves_34 m m1 x y h i j v hv h34

theorem move_inv (m : Map) (cmd : String) (x y : Int) (m2 : Map) (x2 y2 : Int)
    (h : move m cmd x y = some (m2, x2, y2)) :
    x2 = (newPos cmd x y).1 ∧ y2 = (newPos cmd x y).2 ∧
    ∃ m1, clear_previous_location m x y = some m1 ∧
      update_map m1 (newPos cmd x y).1 (newPos cmd x y).2 = some m2 := by
  unfold move at h
  cases hc : clear_previous_location m x y with
  | none => rw [hc] at h; simp at h
  | some m1 =>
    rw [hc] at h
    simp only [Option.some_bind] at h
    cases hu : update_map m1 (newPos cmd x y).1 (newPos cmd x y).2 with
    | none => rw [hu] at h; simp at h
    | some m2c =>
      rw [hu] at h
      simp only [Option.map_some', Option.some_inj, Prod.mk.injEq] at h
      exact ⟨h.2.1.symm, h.2.2.symm, m1, rfl, by rw [hu, h.1]⟩

theorem move_preserves_34 (m : Map) (cmd : String) (x y : Int) (m2 : Map)
    (x2 y2 : Int) (h : move m cmd x y = some (m2, x2, y2)) (i j v : Int)
    (hv : pyGet2 m i j = some v) (h34 : v = 3 ∨ v = 4) :
    pyGet2 m2 i j = some v := by
  obtain ⟨_, _, m1, hc, hu⟩ := move_inv m cmd x y m2 x2 y2 h
  exact update_preserves_34 m1 m2 _ _ hu i j v
    (clear_preserves_34 m m1 x y hc i j v hv h34) h34

theorem moveMany_preserves_34 (ops : List (String × Int × Int)) :
    ∀ m m2, moveMany m ops = some m2 →
      ∀ i j v, pyGet2 m i j = some v → (v = 3 ∨ v = 4) →
        pyGet2 m2 i j = some v := by
  induction ops with
  | nil =>
    intro m m2 h i j v hv h34
    rw [← Option.some_inj.mp h]
    exact hv
  | cons op rest ih =>
    intro m m2 h i j v hv h34
    unfold moveMany at h
    cases hm : move m op.1 op.2.1 op.2.2 with
    | none => rw [hm] at h; simp at h
    | some r =>
      rw [hm] at h
      simp only [Option.some_bind] at h
      exact ih r.1 m2 h i j v
        (move_preserves_34 m op.1 op.2.1 op.2.2 r.1 r.2.1 r.2.2 (by rw [hm]) i j v
          hv h34) h34

theorem newPos_up (x y : Int) : newPos "UP" x y = (x - 1, y) := rfl

theorem newPos_down (x y : Int) : newPos "DOWN" x y = (x + 1, y) := rfl

theorem newPos_right (x y : Int) : newPos "RIGHT" x y = (x, y + 1) := rfl

theorem newPos_left (x y : Int) : newPos "LEFT" x y = (x, y - 1) := rfl

theorem newPos_none (x y : Int) : newPos "NONE" x y = (x, y) := rfl

theorem move_touched (m : Map) (cmd : String) (x y : Int) (m2 : Map)
    (x2 y2 : Int) (h : move m cmd x y = some (m2, x2, y2)) :
    (∀ v, pyGet2 m x y = some v → ¬(v = 3 ∨ v = 4) → pyGet2 m2 x y = some 2) ∧
    (∀ v, pyGet2 m x2 y2 = some v → ¬(v = 3 ∨ v = 4) →
      pyGet2 m2 x2 y2 = some 2) := by
  obtain ⟨hx2, hy2, m1, hc, hu⟩ := move_inv m cmd x y m2 x2 y2 h
  rw [← hx2, ← hy2] at hu
  obtain ⟨w1, hw1⟩ := update_get_inv m1 m2 x2 y2 hu
  obtain ⟨m2c, h2, h2res, h2same, h2diff⟩ := update_map_spec m1 x2 y2 w1 hw1
  have hm2 : m2c = m2 := by
    rw [hu] at h2
    exact (Option.some_inj.mp h2).symm
  rw [hm2] at h2res h2same h2diff
  constructor
  · intro v hv h34
    obtain ⟨m1c, h1, hres1, hsame1, hdiff1⟩ := clear_spec m x y v hv
    have hm1 : m1c = m1 := by
      rw [hc] at h1
      exact (Option.some_inj.mp h1).symm
    rw [hm1] at hres1 hsame1 hdiff1
    have hstep1 : pyGet2 m1 x y = some 2 := by
      have hs := hsame1 x y rfl
      rw [if_neg h34] at hs
      exact hs
    by_cases hsame : pyRes2 m1 x y = pyRes2 m1 x2 y2
    · have hw1v : w1 = 2 := by
        have he := pyGet2_congr_res m1 x y x2 y2 hsame
        rw [hstep1, hw1] at he
        exact (Option.some_inj.mp he.symm)
      have hg := h2same x y hsame
      rw [hw1v] at hg
      norm_num at hg
      exact hg
    · rw [h2diff x y hsame]
      exact hstep1
  · intro v hv h34
    obtain ⟨w0, hw0⟩ := update_get_inv m m1 x y
      (by rw [← clear_eq_update_fun]; exact hc)
    obtain ⟨m1c, h1, hres1, hsame1, hdiff1⟩ := clear_spec m x y w0 hw0
    have hm1 : m1c = m1 := by
      rw [hc] at h1
      exact (Option.some_inj.mp h1).symm
    rw [hm1] at hres1 hsame1 hdiff1
    have hstep1 : ∃ u, pyGet2 m1 x2 y2 = some u ∧ ¬(u = 3 ∨ u = 4) := by
      by_cases hsame : pyRes2 m x2 y2 = pyRes2 m x y
      · have hvw : v = w0 := by
          have he := pyGet2_congr_res m x2 y2 x y hsame
          rw [hv, hw0] at he
          exact Option.some_inj.mp he
        refine ⟨2, ?_, by norm_num⟩
        have hs := hsame1 x2 y2 hsame
        rw [← hvw, if_neg h34] at hs
        exact hs
      · exact ⟨v, by rw [hdiff1 x2 y2 hsame]; exact hv, h34⟩
    obtain ⟨u, hu1, hu34⟩ := hstep1
    have hw1u : w1 = u := by
      rw [hw1] at hu1
      exact Option.some_inj.mp hu1
    have hg := h2same x2 y2 rfl
    rw [hw1u, if_neg hu34] at hg
    exact hg

theorem move_some (m : Map) (cmd : String) (x y v w : Int)
    (hv : pyGet2 m x y = some v)
    (hw : pyGet2 m (newPos cmd x y).1 (newPos cmd x y).2 = some w) :
    ∃ m2, move m cmd x y = some (m2, (newPos cmd x y).1, (newPos cmd x y).2) := by
  obtain ⟨m1, h1, hres1, _, _⟩ := clear_spec m x y v hv
  obtain ⟨rc, hrc, _⟩ := pyGet2_res_of_some m _ _ w hw
  have hres1p : pyRes2 m1 (newPos cmd x y).1 (newPos cmd x y).2 = some rc := by
    rw [hres1]
    exact hrc
  obtain ⟨u, hu⟩ := pyGet2_some_of_res m1 _ _ rc hres1p
  obtain ⟨m2, h2, _, _, _⟩ := update_map_spec m1 _ _ u hu
  refine ⟨m2, ?_⟩
  unfold move
  rw [h1]
  simp only [Option.some_bind]
  rw [h2]
  rfl

theorem move_rect (m : Map) (R C : Nat) (cmd : String) (x y : Int) (m2 : Map)
    (x2 y2 : Int) (h : move m cmd x y = some (m2, x2, y2)) (hr : rect m R C) :
    rect m2 R C := by
  obtain ⟨_, _, m1, hc, hu⟩ := move_inv m cmd x y m2 x2 y2 h
  rw [clear_eq_update_fun] at hc
  exact update_rect m1 m2 R C _ _ (update_rect m m1 R C x y hr hc) hu

theorem pyRes2_of_inBounds (m : Map) (R C : Nat) (h : rect m R C) (i j : Int)
    (hb : inBounds R C i j) : pyRes2 m i j = some (i.toNat, j.toNat) := by
  obtain ⟨h1, h2, h3, h4⟩ := hb
  have hi : pyIdx m.length i = some i.toNat := by
    rw [h.1]
    exact pyIdx_of_nonneg R i h1 h2
  have hiR : i.toNat < R := by omega
  obtain ⟨row, hrow, hlen⟩ := rect_row m R C h i.toNat hiR
  have hj : pyIdx row.length j = some j.toNat := by
    rw [hlen]
    exact pyIdx_of_nonneg C j h3 h4
  unfold pyRes2
  rw [hi]
  simp only [Option.some_bind]
  rw [hrow]
  simp only [Option.some_bind]
  rw [hj]
  rfl
/-- Claim C3: `move` never changes a cell holding `3` or `4` — under
arbitrarily repeated applications, any cell valued `3` or `4` before
holds the same value after — and each touched cell (departure and
arrival) that does not hold `3` or `4` is set to `2`. -/
theorem C3_singular_points_preserved :
    (∀ ops m m2, moveMany m ops = some m2 →
      ∀ i j v, pyGet2 m i j = some v → (v = 3 ∨ v = 4) →
        pyGet2 m2 i j = some v) ∧
    (∀ m cmd x y m2 x2 y2, move m cmd x y = some (m2, x2, y2) →
      (∀ v, pyGet2 m x y = some v → ¬(v = 3 ∨ v = 4) →
        pyGet2 m2 x y = some 2) ∧
      (∀ v, pyGet2 m x2 y2 = some v → ¬(v = 3 ∨ v = 4) →
        pyGet2 m2 x2 y2 = some 2)) :=
  ⟨fun ops m m2 h i j v hv h34 => moveMany_preserves_34 ops m m2 h i j v hv h34,
   fun m cmd x y m2 x2 y2 h => move_touched m cmd x y m2 x2 y2 h⟩

/-- Witness for C3: one UP move on `[[0],[3]]` from `(1,0)` keeps the
start marker `3` at `(1,0)` and sets the vacated free arrival cell
`(0,0)` to `2`. -/
theorem C3_singular_points_preserved_witness :
    pyGet2 [[2], [3]] 1 0 = some 3 ∧ pyGet2 [[2], [3]] 0 0 = some 2 :=
  ⟨C3_singular_points_preserved.1 [("UP", 1, 0)] [[0], [3]] [[2], [3]]
      (by decide) 1 0 3 (by decide) (Or.inl rfl),
   (C3_singular_points_preserved.2 [[0], [3]] "UP" 1 0 [[2], [3]] 0 0
      (by decide)).2 0 (by decide) (by decide)⟩

/-- Claim C6: from any position whose UP neighbor cell is free (`0`),
applying UP then DOWN returns the agent to the original coordinate; the
intermediate cell ends valued `2`, and the starting cell ends valued `2`
unless it held `3` or `4`, in which case it is unchanged. -/
theorem C6_up_down_roundtrip (m : Map) (x y v : Int)
    (hup : pyGet2 m (x - 1) y = some 0) (hv : pyGet2 m x y = some v) :
    ∃ m1 m2, move m "UP" x y = some (m1, x - 1, y) ∧
      move m1 "DOWN" (x - 1) y = some (m2, x, y) ∧
      pyGet2 m2 (x - 1) y = some 2 ∧
      pyGet2 m2 x y = some (if v = 3 ∨ v = 4 then v else 2) := by
  have hup' : pyGet2 m (newPos "UP" x y).1 (newPos "UP" x y).2 = some 0 := by
    rw [newPos_up]
    exact hup
  obtain ⟨m1, hm1⟩ := move_some m "UP" x y v 0 hv hup'
  have hm1u : move m "UP" x y = some (m1, x - 1, y) := hm1
  have hA1 : pyGet2 m1 (x - 1) y = some 2 :=
    (move_touched m "UP" x y m1 (x - 1) y hm1u).2 0 hup (by norm_num)
  have hA2 : pyGet2 m1 x y = some (if v = 3 ∨ v = 4 then v else 2) := by
    by_cases h34 : v = 3 ∨ v = 4
    · rw [if_pos h34]
      exact move_preserves_34 m "UP" x y m1 (x - 1) y hm1u x y v hv h34
    · rw [if_neg h34]
      exact (move_touched m "UP" x y m1 (x - 1) y hm1u).1 v hv h34
  have hpd : newPos "DOWN" (x - 1) y = (x, y) := by
    rw [newPos_down]
    have hs : x - 1 + 1 = x := by ring
    rw [hs]
  obtain ⟨m2, hm2⟩ := move_some m1 "DOWN" (x - 1) y 2
    (if v = 3 ∨ v = 4 then v else 2) hA1 (by rw [hpd]; exact hA2)
  rw [hpd] at hm2
  have hB1 : pyGet2 m2 (x - 1) y = some 2 :=
    (move_touched m1 "DOWN" (x - 1) y m2 x y hm2).1 2 hA1 (by norm_num)
  have hB2 : pyGet2 m2 x y = some (if v = 3 ∨ v = 4 then v else 2) := by
    by_cases h34 : v = 3 ∨ v = 4
    · rw [if_pos h34]
      rw [if_pos h34] at hA2
      exact move_preserves_34 m1 "DOWN" (x - 1) y m2 x y hm2 x y v hA2 h34
    · rw [if_neg h34]
      rw [if_neg h34] at hA2
      exact (move_touched m1 "DOWN" (x - 1) y m2 x y hm2).2 2 hA2 (by norm_num)
  exact ⟨m1, m2, hm1u, hm2, hB1, hB2⟩

/-- Witness for C6 on `[[0],[3]]` from `(1,0)`: UP then DOWN returns to
`(1,0)`, the intermediate cell `(0,0)` is `2` and the start marker `3`
survives. -/
theorem C6_up_down_roundtrip_witness :
    ∃ m1 m2, move [[0], [3]] "UP" 1 0 = some (m1, 1 - 1, 0) ∧
      move m1 "DOWN" (1 - 1) 0 = some (m2, 1, 0) ∧
      pyGet2 m2 (1 - 1) 0 = some 2 ∧
      pyGet2 m2 1 0 = some (if (3 : Int) = 3 ∨ (3 : Int) = 4 then 3 else 2) :=
  C6_up_down_roundtrip [[0], [3]] 1 0 3 (by decide) (by decide)

/-- Claim C10: for in-bounds current and destination positions, `move`
changes at most the departure and the arrival cell — every other
in-bounds cell keeps its value — and with command NONE the returned
position equals the input position. -/
theorem C10_move_frame (R C : Nat) (m : Map) (cmd : String) (x y : Int)
    (m2 : Map) (x2 y2 : Int) (hrect : rect m R C) (hb : inBounds R C x y)
    (hb2 : inBounds R C x2 y2) (h : move m cmd x y = some (m2, x2, y2)) :
    (∀ i j, inBounds R C i j → ¬(i = x ∧ j = y) → ¬(i = x2 ∧ j = y2) →
      pyGet2 m2 i j = pyGet2 m i j) ∧
    (cmd = "NONE" → x2 = x ∧ y2 = y) := by
  obtain ⟨hx2, hy2, m1, hc, hu⟩ := move_inv m cmd x y m2 x2 y2 h
  rw [← hx2, ← hy2] at hu
  constructor
  · intro i j hbij hne1 hne2
    obtain ⟨w0, hw0⟩ := update_get_inv m m1 x y
      (by rw [← clear_eq_update_fun]; exact hc)
    obtain ⟨m1c, h1, hres1, hsame1, hdiff1⟩ := clear_spec m x y w0 hw0
    have hm1 : m1c = m1 := by
      rw [hc] at h1
      exact (Option.some_inj.mp h1).symm
    rw [hm1] at hres1 hsame1 hdiff1
    obtain ⟨w1, hw1⟩ := update_get_inv m1 m2 x2 y2 hu
    obtain ⟨m2c, h2, h2res, h2same, h2diff⟩ := update_map_spec m1 x2 y2 w1 hw1
    have hm2 : m2c = m2 := by
      rw [hu] at h2
      exact (Option.some_inj.mp h2).symm
    rw [hm2] at h2res h2same h2diff
    have hres_ij := pyRes2_of_inBounds m R C hrect i j hbij
    have hres_xy := pyRes2_of_inBounds m R C hrect x y hb
    have hres_x2y2 := pyRes2_of_inBounds m R C hrect x2 y2 hb2
    have hne1r : pyRes2 m i j ≠ pyRes2 m x y := by
      rw [hres_ij, hres_xy]
      intro hcon
      simp only [Option.some_inj, Prod.mk.injEq] at hcon
      obtain ⟨hc1, hc2⟩ := hcon
      obtain ⟨hbi1, hbi2, hbi3, hbi4⟩ := hbij
      obtain ⟨hbx1, hbx2, hbx3, hbx4⟩ := hb
      exact hne1 ⟨by omega, by omega⟩
    have hne2r : pyRes2 m1 i j ≠ pyRes2 m1 x2 y2 := by
      rw [hres1 i j, hres1 x2 y2, hres_ij, hres_x2y2]
      intro hcon
      simp only [Option.some_inj, Prod.mk.injEq] at hcon
      obtain ⟨hc1, hc2⟩ := hcon
      obtain ⟨hbi1, hbi2, hbi3, hbi4⟩ := hbij
      obtain ⟨hbx1, hbx2, hbx3, hbx4⟩ := hb2
      exact hne2 ⟨by omega, by omega⟩
    rw [h2diff i j hne2r, hdiff1 i j hne1r]
  · intro hcmd
    subst hcmd
    rw [newPos_none] at hx2 hy2
    exact ⟨hx2, hy2⟩

/-- Witness for C10 on `[[0,0],[3,0]]`, UP from `(1,0)` to `(0,0)`: the
untouched cell `(0,1)` keeps its value. -/
theorem C10_move_frame_witness :
    pyGet2 [[2, 0], [3, 0]] 0 1 = pyGet2 [[0, 0], [3, 0]] 0 1 :=
  (C10_move_frame 2 2 [[0, 0], [3, 0]] "UP" 1 0 [[2, 0], [3, 0]] 0 0
    (by decide) (by decide) (by decide) (by decide)).1 0 1
    (by decide) (by decide) (by decide)
/-! ### Termination of the control loop -/

theorem take_decision_spec (u d r l dx dy adx ady : Int) :
    take_decision u d r l dx dy adx ady = "NONE" ∨
    (take_decision u d r l dx dy adx ady = "UP" ∧ (u = 0 ∨ u = 4)) ∨
    (take_decision u d r l dx dy adx ady = "DOWN" ∧ (d = 0 ∨ d = 4)) ∨
    (take_decision u d r l dx dy adx ady = "RIGHT" ∧ (r = 0 ∨ r = 4)) ∨
    (take_decision u d r l dx dy adx ady = "LEFT" ∧ (l = 0 ∨ l = 4)) := by
  unfold take_decision
  split_ifs <;>
    first
      | exact Or.inl rfl
      | exact Or.inr (Or.inl ⟨rfl, by assumption⟩)
      | exact Or.inr (Or.inr (Or.inl ⟨rfl, by assumption⟩))
      | exact Or.inr (Or.inr (Or.inr (Or.inl ⟨rfl, by assumption⟩)))
      | exact Or.inr (Or.inr (Or.inr (Or.inr ⟨rfl, by assumption⟩)))

theorem stepCmd_spec (st : LoopState) :
    stepCmd st = "NONE" ∨
    (stepCmd st = "UP" ∧
      ((analyze st.map st.x st.y).1 = 0 ∨ (analyze st.map st.x st.y).1 = 4)) ∨
    (stepCmd st = "DOWN" ∧
      ((analyze st.map st.x st.y).2.1 = 0 ∨
        (analyze st.map st.x st.y).2.1 = 4)) ∨
    (stepCmd st = "RIGHT" ∧
      ((analyze st.map st.x st.y).2.2.1 = 0 ∨
        (analyze st.map st.x st.y).2.2.1 = 4)) ∨
    (stepCmd st = "LEFT" ∧
      ((analyze st.map st.x st.y).2.2.2 = 0 ∨
        (analyze st.map st.x st.y).2.2.2 = 4)) :=
  take_decision_spec _ _ _ _ _ _ _ _

theorem statusGet (m : Map) (a b v : Int)
    (hv : (pyGet2 m a b).getD 1 = v) (h04 : v = 0 ∨ v = 4) :
    pyGet2 m a b = some v := by
  cases hg : pyGet2 m a b with
  | none =>
    rw [hg] at hv
    simp only [Option.getD_none] at hv
    omega
  | some w =>
    rw [hg] at hv
    simp only [Option.getD_some] at hv
    rw [hv]

theorem move_goal (R C : Nat) (m : Map) (cmd : String) (x y v w : Int)
    (hrect : rect m R C) (hv : pyGet2 m x y = some v)
    (hw : pyGet2 m (newPos cmd x y).1 (newPos cmd x y).2 = some w) :
    ∃ m2 x2 y2, move m cmd x y = some (m2, x2, y2) ∧ rect m2 R C ∧
      wrapBounds R C x2 y2 := by
  obtain ⟨m2, hmove⟩ := move_some m cmd x y v w hv hw
  obtain ⟨rc, hres, _⟩ := pyGet2_res_of_some m _ _ w hw
  exact ⟨m2, _, _, hmove, move_rect m R C cmd x y m2 _ _ hmove hrect,
    wrap_of_pyRes2_some m R C hrect _ _ rc hres⟩

theorem stepCmd_move_some (R C : Nat) (st : LoopState)
    (hrect : rect st.map R C) (hw : wrapBounds R C st.x st.y) :
    ∃ m2 x2 y2, move st.map (stepCmd st) st.x st.y = some (m2, x2, y2) ∧
      rect m2 R C ∧ wrapBounds R C x2 y2 := by
  obtain ⟨rc, hres⟩ := pyRes2_some_of_wrap st.map R C hrect st.x st.y hw
  obtain ⟨v, hv⟩ := pyGet2_some_of_res st.map st.x st.y rc hres
  rcases stepCmd_spec st with h | ⟨h, hg⟩ | ⟨h, hg⟩ | ⟨h, hg⟩ | ⟨h, hg⟩ <;>
    rw [h]
  · exact move_goal R C st.map "NONE" st.x st.y v v hrect hv
      (by rw [newPos_none]; exact hv)
  · exact move_goal R C st.map "UP" st.x st.y v _ hrect hv
      (by rw [newPos_up]; exact statusGet st.map (st.x - 1) st.y _ rfl hg)
  · exact move_goal R C st.map "DOWN" st.x st.y v _ hrect hv
      (by rw [newPos_down]; exact statusGet st.map (st.x + 1) st.y _ rfl hg)
  · exact move_goal R C st.map "RIGHT" st.x st.y v _ hrect hv
      (by rw [newPos_right]; exact statusGet st.map st.x (st.y + 1) _ rfl hg)
  · exact move_goal R C st.map "LEFT" st.x st.y v _ hrect hv
      (by rw [newPos_left]; exact statusGet st.map st.x (st.y - 1) _ rfl hg)

theorem loopStep_progress (R C : Nat) (st : LoopState)
    (hrect : rect st.map R C) (hw : wrapBounds R C st.x st.y) :
    (∃ st2, loopStep st = .done Outcome.goalReached st2) ∨
    (∃ st2, loopStep st = .done Outcome.stepLimit st2 ∧ 100 < st.steps) ∨
    (∃ st2, loopStep st = .next st2 ∧ rect st2.map R C ∧
      wrapBounds R C st2.x st2.y ∧ st2.steps = st.steps + 1 ∧
      st.steps ≤ 100) := by
  by_cases hgoal : (get_distance st.x st.y st.gx st.gy).2.2.1 = 0 ∧
      (get_distance st.x st.y st.gx st.gy).2.2.2 = 0
  · left
    refine ⟨{ st with steps := st.steps + 1 }, ?_⟩
    simp only [loopStep]
    rw [if_pos hgoal]
  · obtain ⟨m2, x2, y2, hmove, hrect2, hw2⟩ := stepCmd_move_some R C st hrect hw
    by_cases hlim : st.steps > 100
    · right
      left
      refine ⟨{ st with map := m2, x := x2, y := y2, steps := st.steps + 1, trace := st.trace ++ [stepCmd st] }, ?_, hlim⟩
      simp only [loopStep, hmove]
      rw [if_neg hgoal, if_pos hlim]
    · right
      right
      refine ⟨{ st with map := m2, x := x2, y := y2, steps := st.steps + 1, trace := st.trace ++ [stepCmd st] }, ?_, hrect2, hw2, rfl, by omega⟩
      simp only [loopStep, hmove]
      rw [if_neg hgoal, if_neg hlim]

theorem run_total (R C : Nat) : ∀ (fuel : Nat) (st : LoopState),
    rect st.map R C → wrapBounds R C st.x st.y →
    1 ≤ fuel → 102 ≤ st.steps + fuel →
    ∃ fin, run fuel st = some fin ∧ fin.1 ≠ Outcome.crash := by
  intro fuel
  induction fuel with
  | zero =>
    intro st _ _ h1 _
    omega
  | succ n ih =>
    intro st hrect hw h1 h2
    rcases loopStep_progress R C st hrect hw with
      ⟨st2, hstep⟩ | ⟨st2, hstep, hlim⟩ |
      ⟨st2, hstep, hrect2, hw2, hsteps, hle⟩
    · refine ⟨(Outcome.goalReached, st2), ?_, by simp⟩
      simp only [run, hstep]
    · refine ⟨(Outcome.stepLimit, st2), ?_, by simp⟩
      simp only [run, hstep]
    · obtain ⟨fin, hrun, hcr⟩ := ih st2 hrect2 hw2 (by omega) (by omega)
      refine ⟨fin, ?_, hcr⟩
      simp only [run, hstep]
      exact hrun

/-- Claim C4 (amended): for every rectangular grid and every in-bounds
start coordinate, the loop of `HNS.process` always terminates in
GOAL_REACHED or STEP_LIMIT_EXCEEDED, within at most 102 iterations of
the per-step cycle (steps `0..101`; the limit check `steps > 100` first
fires at `steps = 101`). -/
theorem C4_terminates_within_102 (R C : Nat) (m : Map) (ix iy gx gy : Int)
    (hrect : rect m R C) (hb : inBounds R C ix iy) :
    ∃ fin, run 102 (initState m ix iy gx gy) = some fin ∧
      (fin.1 = Outcome.goalReached ∨ fin.1 = Outcome.stepLimit) := by
  have hw : wrapBounds R C ix iy := by
    obtain ⟨h1, h2, h3, h4⟩ := hb
    exact ⟨by omega, h2, by omega, h4⟩
  obtain ⟨fin, hrun, hcr⟩ := run_total R C 102 (initState m ix iy gx gy)
    hrect hw (by omega) (by show 102 ≤ 0 + 102; omega)
  refine ⟨fin, hrun, ?_⟩
  cases hfo : fin.1 with
  | goalReached => exact Or.inl rfl
  | stepLimit => exact Or.inr rfl
  | crash => exact absurd hfo hcr

/-- Witness for the amended C4: on the boxed 1-by-1 grid `[[3]]` with
unreachable goal `(5,5)`, 102 iterations suffice to terminate. -/
theorem C4_terminates_within_102_witness :
    ∃ fin, run 102 (initState [[3]] 0 0 5 5) = some fin ∧
      (fin.1 = Outcome.goalReached ∨ fin.1 = Outcome.stepLimit) :=
  C4_terminates_within_102 1 1 [[3]] 0 0 5 5 (by decide) (by decide)
end HNS
